import Mathlib

/-!
Shallow embedding of the satsnet-api request layer:
the `tryit` result/retry combinators (src/utils/tryit.ts),
the envelope-unwrap step `processResponse`, the response cache,
metrics recording and the GET pipeline of `AdvancedHttpClient`
(src/utils/advanced-http.ts; the same logic appears in
`HttpClient` of src/utils/http.ts), the URL/cache-key builder
`buildUrlWithCacheKey`, and the batch orchestrator
`SatsNetClient.batchRequest` (src/api/satsnet-client.ts) built on
`tryitAll`.

JavaScript runtime values are modelled by `JsValue` (numbers as `Int`;
the claims only involve integral numbers). Thrown values are modelled
by `JsError`. Asynchronous operations are modelled by their outcome
per invocation: a function from the attempt index (1-based) to an
`Except JsError` outcome, with explicit state threading where the
operation mutates client state.
-/

namespace SatsnetApi

/-- A JavaScript value as handled by the client: JSON data plus
`undefined`. Numbers are modelled as integers (all code paths the
claims touch use integral values). -/
inductive JsValue where
  | undef : JsValue
  | null : JsValue
  | bool (b : Bool) : JsValue
  | num (n : Int) : JsValue
  | str (s : String) : JsValue
  | arr (elems : List JsValue) : JsValue
  | obj (fields : List (String × JsValue)) : JsValue

/-- Property lookup on an object value: first binding of the key, as a
JavaScript object has one value per key. Returns `none` when the key is
absent or the value is not an object (property access yields
`undefined`). -/
def JsValue.lookup : JsValue → String → Option JsValue
  | .obj fields, key => go fields key
  | _, _ => none
where
  go : List (String × JsValue) → String → Option JsValue
    | [], _ => none
    | (k, v) :: rest, key => if k = key then some v else go rest key

/-- JavaScript truthiness: `undefined`, `null`, `false`, `0` and `""`
are falsy; every other value (including any object or array) is
truthy. -/
def JsValue.truthy : JsValue → Bool
  | .undef => false
  | .null => false
  | .bool b => b
  | .num n => n != 0
  | .str s => s != ""
  | .arr _ => true
  | .obj _ => true

/-- `String(v)` / template-literal coercion of a value, as used in
`API Error: ${apiResponse.msg}` and query-parameter serialization. -/
def jsDisplay : JsValue → String
  | .undef => "undefined"
  | .null => "null"
  | .bool b => if b then "true" else "false"
  | .num n => toString n
  | .str s => s
  | .arr elems => String.intercalate "," (elems.map elemDisplay)
  | .obj _ => "[object Object]"
where
  /-- Array elements coerce like the whole value except that `null` and
  `undefined` elements become the empty string. -/
  elemDisplay : JsValue → String
    | .undef => ""
    | .null => ""
    | .bool b => if b then "true" else "false"
    | .num n => toString n
    | .str s => s
    | .arr _ => ""
    | .obj _ => "[object Object]"

/-- The numeric view of a value, used where the source casts an
envelope field to `number`. -/
def JsValue.asNum : JsValue → Option Int
  | .num n => some n
  | _ => none

/-- The structured error type of src/types/index.ts:
`class SatsnetApiError extends Error { message; code?: number;
data?: unknown }`. An absent `code` is `none`; an absent `data` is
`JsValue.undef`. -/
structure SatsnetApiError where
  message : String
  code : Option Int := none
  data : JsValue := JsValue.undef

/-- A thrown JavaScript value as seen by a `catch` block: a
`SatsnetApiError` instance, a generic `Error` (with `name` and
`message`), or any other value. -/
inductive JsError where
  | api (e : SatsnetApiError) : JsError
  | generic (name message : String) : JsError
  | other (v : JsValue) : JsError

/-- `haystack.includes(needle)` on strings. -/
def strContains (haystack needle : String) : Bool :=
  (List.range (haystack.toList.length + 1)).any fun i =>
    needle.toList.isPrefixOf (haystack.toList.drop i)

/-- `wrapGenericError` of src/utils/tryit.ts: classify a generic
`Error` by inspecting its message/name, producing codes -7 (network),
-8 (parse), -9 (timeout) or -10 (unexpected). -/
def wrapGenericError (name message : String) : SatsnetApiError :=
  if strContains message "fetch" || strContains message "network" then
    { message := "Network error: " ++ message, code := some (-7),
      data := JsValue.obj [("originalError", JsValue.str message),
                           ("type", JsValue.str "NETWORK_ERROR")] }
  else if strContains message "JSON" || strContains message "parse" then
    { message := "Invalid response format: " ++ message, code := some (-8),
      data := JsValue.obj [("originalError", JsValue.str message),
                           ("type", JsValue.str "PARSE_ERROR")] }
  else if strContains message "timeout" || name = "AbortError" then
    { message := "Request timeout: " ++ message, code := some (-9),
      data := JsValue.obj [("originalError", JsValue.str message),
                           ("type", JsValue.str "TIMEOUT_ERROR")] }
  else
    { message := "Unexpected error: " ++ message, code := some (-10),
      data := JsValue.obj [("originalError", JsValue.str message),
                           ("type", JsValue.str "UNEXPECTED_ERROR")] }

/-- `wrapError` of src/utils/tryit.ts: a `SatsnetApiError` passes
through unchanged; a generic `Error` is classified; any other thrown
value becomes code -11. -/
def wrapError : JsError → SatsnetApiError
  | .api e => e
  | .generic name message => wrapGenericError name message
  | .other v =>
    { message := "Unknown error: " ++ jsDisplay v, code := some (-11),
      data := JsValue.obj [("originalError", v),
                           ("type", JsValue.str "UNKNOWN_ERROR")] }

/-- JavaScript strict comparison `v === 0` of a value with the number
literal `0`: true exactly when the value is the number 0. -/
def JsValue.isNumZero : JsValue → Bool
  | .num n => n == 0
  | _ => false

/-- The envelope-unwrap step `processResponse` shared by
`HttpClient.processResponse` (src/utils/http.ts) and
`AdvancedHttpClient.processResponse` (src/utils/advanced-http.ts):
if the body is an object with a `code` property, `code !== 0` throws a
`SatsnetApiError` built from the envelope, and `code === 0` returns
`data ?? envelope` (`??` falls back on `null` and `undefined`);
any other body is returned unchanged. -/
def processResponse (data : JsValue) : Except SatsnetApiError JsValue :=
  match data with
  | JsValue.obj fields =>
    match JsValue.lookup (JsValue.obj fields) "code" with
    | some codeVal =>
      if !codeVal.isNumZero then
        Except.error
          { message := "API Error: " ++
              jsDisplay ((JsValue.lookup (JsValue.obj fields) "msg").getD JsValue.undef),
            code := codeVal.asNum,
            data := (JsValue.lookup (JsValue.obj fields) "data").getD JsValue.undef }
      else
        Except.ok
          (match JsValue.lookup (JsValue.obj fields) "data" with
           | none => JsValue.obj fields
           | some JsValue.null => JsValue.obj fields
           | some JsValue.undef => JsValue.obj fields
           | some v => v)
    | none => Except.ok (JsValue.obj fields)
  | _ => Except.ok data

/-- `tryit` of src/utils/tryit.ts applied to the outcome of one
invocation of the wrapped operation: success gives `(null, result)`,
a thrown value is wrapped and gives `(wrapError e, null)`. The
function is total: it never propagates a throw. -/
def tryit {T : Type} (outcome : Except JsError T) :
    Option SatsnetApiError × Option T :=
  match outcome with
  | Except.ok v => (none, some v)
  | Except.error e => (some (wrapError e), none)

/-- `isError` of src/utils/tryit.ts: `result[0] !== null`. -/
def isError {T : Type} (result : Option SatsnetApiError × Option T) : Bool :=
  result.1.isSome

/-- The early-stop test of `tryitWithRetry`
(`lastError.code && lastError.code >= 400 && lastError.code < 500`):
JavaScript truthiness of the code (absent or `0` is falsy) followed by
the 4xx range check. -/
def isClientError (e : SatsnetApiError) : Bool :=
  match e.code with
  | some c => decide (c ≠ 0 ∧ 400 ≤ c ∧ c < 500)
  | none => false

/-- The loop of `tryitWithRetry` (src/utils/tryit.ts), generalized
over threaded state `S` because the operation retried by
`AdvancedHttpClient` mutates the client's cache. Arguments:
the operation (`fn attempt state`), the current attempt number
(1-based), and the attempts still allowed (`maxRetries - attempt + 1`).
Returns the final state, the `(error, value)` pair, and the number of
invocations performed. Success returns immediately; a wrapped error
whose code is in the 4xx range breaks out of the loop, as does the
last attempt; otherwise the loop backs off (the delay is timing, not
modelled) and retries. -/
def tryitWithRetryGo {S T : Type} (fn : Nat → S → S × Except JsError T) :
    Nat → Nat → S → S × (Option SatsnetApiError × Option T) × Nat
  | _, 0, s => (s, (none, none), 0)
  | attempt, remaining + 1, s =>
    match fn attempt s with
    | (s', Except.ok v) => (s', (none, some v), 1)
    | (s', Except.error e) =>
      let lastError := wrapError e
      if isClientError lastError then (s', (some lastError, none), 1)
      else if remaining = 0 then (s', (some lastError, none), 1)
      else
        match tryitWithRetryGo fn (attempt + 1) remaining s' with
        | (s'', r, n) => (s'', r, n + 1)

/-- `tryitWithRetry(fn, maxRetries)` for a state-threading operation,
started at attempt 1. When `maxRetries = 0` the `for` loop body never
runs and the source returns `[null, null]` with zero invocations. -/
def tryitWithRetryS {S T : Type} (fn : Nat → S → S × Except JsError T)
    (maxRetries : Nat) (s : S) :
    S × (Option SatsnetApiError × Option T) × Nat :=
  tryitWithRetryGo fn 1 maxRetries s

/-- `tryitWithRetry(fn, maxRetries)` for a pure operation, described by
the outcome of each invocation (`fn i` is what the `i`-th invocation
does). Returns the `(error, value)` pair and the invocation count. -/
def tryitWithRetry {T : Type} (fn : Nat → Except JsError T)
    (maxRetries : Nat) : (Option SatsnetApiError × Option T) × Nat :=
  match tryitWithRetryS (fun i (u : Unit) => (u, fn i)) maxRetries () with
  | (_, r, n) => (r, n)

/-- JavaScript strict comparison `v === null`. -/
def JsValue.isNull : JsValue → Bool
  | .null => true
  | _ => false

/-- The aggregation loop of `tryitAll` (src/utils/tryit.ts) over the
settled `tryit` pairs, in input order: an error is pushed to the error
list; otherwise the value is pushed to the value list unless it is
`null` (`else if (value !== null)`). -/
def tryitAllGo :
    List (Option SatsnetApiError × Option JsValue) →
    List SatsnetApiError × List JsValue
  | [] => ([], [])
  | (some e, _) :: rest =>
    match tryitAllGo rest with
    | (errors, values) => (e :: errors, values)
  | (none, some v) :: rest =>
    match tryitAllGo rest with
    | (errors, values) =>
      if v.isNull then (errors, values) else (errors, v :: values)
  | (none, none) :: rest => tryitAllGo rest

/-- `tryitAll` (src/utils/tryit.ts): run every operation through
`tryit` (`Promise.allSettled` of never-rejecting promises, so every
slot settles fulfilled) and aggregate the pairs. Each operation is
given by its outcome. -/
def tryitAll (outcomes : List (Except JsError JsValue)) :
    List SatsnetApiError × List JsValue :=
  tryitAllGo (outcomes.map tryit)

/-- `SatsnetApiError` as a JavaScript value, for the diagnostic payload
of the aggregated batch error. -/
def SatsnetApiError.toJs (e : SatsnetApiError) : JsValue :=
  JsValue.obj
    [("name", JsValue.str "SatsnetApiError"),
     ("message", JsValue.str e.message),
     ("code", match e.code with | some c => JsValue.num c | none => JsValue.undef),
     ("data", e.data)]

/-- `SatsNetClient.batchRequest` (src/api/satsnet-client.ts) after the
dispatch table has resolved each `BatchCall` to an operation, each
given by its outcome: run all through `tryitAll`; if any error was
collected, throw one aggregated `SatsnetApiError` (code -1) listing the
failures; otherwise return the collected values. -/
def batchRequest (outcomes : List (Except JsError JsValue)) :
    Except SatsnetApiError (List JsValue) :=
  match tryitAll outcomes with
  | (errors, results) =>
    match errors with
    | [] => Except.ok results
    | _ =>
      Except.error
        { message := "Batch requests failed: " ++
            String.intercalate "; " (errors.map SatsnetApiError.message),
          code := some (-1),
          data := JsValue.obj [("errors", JsValue.arr (errors.map SatsnetApiError.toJs))] }

/-- The configuration fields of `AdvancedHttpConfig` that the GET
pipeline reads, with the defaults installed by the
`AdvancedHttpClient` constructor (`cache: true`,
`cacheMaxAge: 300000`) and by the call sites (`retries ?? 3`,
`chain || 'btc'`). -/
structure AdvancedHttpConfig where
  baseUrl : String := "https://apiprd.ordx.market"
  chain : String := "btc"
  network : String := "mainnet"
  cache : Bool := true
  cacheMaxAge : Nat := 300000
  retries : Nat := 3

/-- The `PerformanceMetrics` counters of the client
(src/utils/advanced-http.ts). `averageLatency` is kept as a rational
(the source divides two numbers). Pool-occupancy gauges are not part
of any claim and are omitted. -/
structure PerformanceMetrics where
  requestCount : Nat := 0
  errorCount : Nat := 0
  averageLatency : ℚ := 0
  totalLatency : Nat := 0
  cacheHits : Nat := 0
  cacheMisses : Nat := 0

/-- The mutable state of one `AdvancedHttpClient` instance: the
metrics counters and the response cache, a JavaScript `Map` from cache
key to `{ data, timestamp }` modelled as an insertion-ordered
association list. -/
structure ClientState where
  metrics : PerformanceMetrics := {}
  cache : List (String × JsValue × Nat) := []

/-- `Map.get`. -/
def mapGet : List (String × JsValue × Nat) → String → Option (JsValue × Nat)
  | [], _ => none
  | (k, d, t) :: rest, key => if k = key then some (d, t) else mapGet rest key

/-- `Map.set`: overwrite in place if the key exists, else append. -/
def mapSet : List (String × JsValue × Nat) → String → JsValue → Nat →
    List (String × JsValue × Nat)
  | [], key, d, t => [(key, d, t)]
  | (k, d0, t0) :: rest, key, d, t =>
    if k = key then (k, d, t) :: rest else (k, d0, t0) :: mapSet rest key d t

/-- `Map.delete`. -/
def mapDelete : List (String × JsValue × Nat) → String →
    List (String × JsValue × Nat)
  | [], _ => []
  | (k, d, t) :: rest, key =>
    if k = key then rest else (k, d, t) :: mapDelete rest key

/-- One query parameter serialized for `url.searchParams.append(key,
String(value))`, skipped when the value is `undefined` or `null`
(`if (value !== undefined && value !== null)`). `URLSearchParams`
percent-encoding is the identity on the characters the claims use and
is not modelled. -/
def queryEntryString (p : String × JsValue) : Option String :=
  match p.2 with
  | JsValue.undef => none
  | JsValue.null => none
  | v => some (p.1 ++ "=" ++ jsDisplay v)

/-- `url.search`: empty, or `?` followed by the `&`-joined parameters
in `Object.entries` insertion order. -/
def searchOf (params : List (String × JsValue)) : String :=
  match params.filterMap queryEntryString with
  | [] => ""
  | qs => "?" ++ String.intercalate "&" qs

/-- `AdvancedHttpClient.buildUrlWithCacheKey`
(src/utils/advanced-http.ts): the URL is
`baseUrl/chain/network/path` plus the query string, and the cache key
is `url.pathname + url.search`. `HttpClient.buildUrl`
(src/utils/http.ts) produces the same `pathname + search` string as
its cache key. -/
def buildUrlWithCacheKey (cfg : AdvancedHttpConfig) (path : String)
    (params : List (String × JsValue)) : String × String :=
  let baseUrl :=
    if cfg.baseUrl.endsWith "/" then cfg.baseUrl.dropRight 1 else cfg.baseUrl
  let pathname := "/" ++ cfg.chain ++ "/" ++ cfg.network ++ "/" ++ path
  let search := searchOf params
  (baseUrl ++ pathname ++ search, pathname ++ search)

/-- `AdvancedHttpClient.checkCache`: with caching disabled, or on an
absent key, report `null`; an entry older than `cacheMaxAge` is
deleted and counted as a miss; otherwise count a hit and return the
stored data. (In this client an absent key is not counted as a miss.)
The reported value is the raw stored `data`; a stored `null` is
indistinguishable from a miss at the call site. -/
def checkCache (cfg : AdvancedHttpConfig) (st : ClientState)
    (cacheKey : String) (now : Nat) : ClientState × JsValue :=
  if cfg.cache = false then (st, JsValue.null)
  else
    match mapGet st.cache cacheKey with
    | none => (st, JsValue.null)
    | some (data, timestamp) =>
      if now - timestamp > cfg.cacheMaxAge then
        ({ st with
            cache := mapDelete st.cache cacheKey,
            metrics := { st.metrics with
              cacheMisses := st.metrics.cacheMisses + 1 } },
         JsValue.null)
      else
        ({ st with metrics := { st.metrics with
            cacheHits := st.metrics.cacheHits + 1 } },
         data)

/-- `AdvancedHttpClient.storeInCache`: no-op when caching is disabled,
else `cache.set(key, { data, timestamp: now })`. The capacity-triggered
sweep (`setTimeout(cleanupCache, 0)` when more than 500 entries) is an
asynchronous pass removing only expired entries and is not modelled. -/
def storeInCache (cfg : AdvancedHttpConfig) (st : ClientState)
    (cacheKey : String) (data : JsValue) (now : Nat) : ClientState :=
  if cfg.cache = false then st
  else { st with cache := mapSet st.cache cacheKey data now }

/-- `AdvancedHttpClient.recordMetrics`: bump `requestCount`, add the
latency, recompute `averageLatency = totalLatency / requestCount`, and
bump `errorCount` when an error is being recorded. (The `onMetrics`
callback only observes a copy.) `HttpClient.recordSuccess` /
`recordError` in src/utils/http.ts perform the same updates. -/
def recordMetrics (st : ClientState) (latency : Nat) (isErr : Bool) :
    ClientState :=
  let requestCount := st.metrics.requestCount + 1
  let totalLatency := st.metrics.totalLatency + latency
  { st with metrics := { st.metrics with
      requestCount := requestCount,
      totalLatency := totalLatency,
      averageLatency := (totalLatency : ℚ) / (requestCount : ℚ),
      errorCount :=
        if isErr then st.metrics.errorCount + 1 else st.metrics.errorCount } }

/-- What one transport attempt (`undici request` plus body decoding)
produces: a response with a status code and the result of the two-tier
body decode of `safeParseJson` (decoded JSON value, or the message of
the decode failure after both the native parse and any manual
decompression failed), or a failure of the request itself
(connection error, timeout, ...). -/
inductive TransportOutcome where
  | response (statusCode : Nat) (body : Except String JsValue)
  | failure (e : JsError)

/-- `AdvancedHttpClient.executeRequest` for one attempt:
`validateResponse` throws an HTTP-status `SatsnetApiError` when
`statusCode >= 400`; a body that `safeParseJson` cannot decode throws
the decode `SatsnetApiError` with code 500; otherwise, when
`statusCode === 200`, the decoded body is stored in the cache, and
`processResponse` is applied to it. -/
def executeRequest (cfg : AdvancedHttpConfig) (st : ClientState)
    (url cacheKey : String) (now : Nat) (t : TransportOutcome) :
    ClientState × Except JsError JsValue :=
  match t with
  | .failure e => (st, Except.error e)
  | .response statusCode body =>
    if 400 ≤ statusCode then
      (st, Except.error (.api
        { message := "HTTP " ++ toString statusCode ++ ": " ++
            (if statusCode = 404 then "Not Found" else "Request Failed"),
          code := some (statusCode : Int),
          data := JsValue.obj
            [("url", JsValue.str url),
             ("status", JsValue.num (statusCode : Int))] }))
    else
      match body with
      | Except.error parseMsg =>
        (st, Except.error (.api
          { message := "Invalid JSON response: " ++ parseMsg,
            code := some 500,
            data := JsValue.obj
              [("originalError", JsValue.str parseMsg)] }))
      | Except.ok data =>
        let st' :=
          if statusCode = 200 then storeInCache cfg st cacheKey data now
          else st
        (st',
         match processResponse data with
         | Except.ok v => Except.ok v
         | Except.error e => Except.error (.api e))

/-- The retried part of `AdvancedHttpClient.get`: `executeRequest`
run through `tryitWithRetry(…, this.config.retries ?? 3)` starting
from the post-cache-check state. -/
def clientGetRan (cfg : AdvancedHttpConfig) (st : ClientState)
    (path : String) (params : List (String × JsValue)) (now : Nat)
    (transport : Nat → TransportOutcome) :
    ClientState × (Option SatsnetApiError × Option JsValue) × Nat :=
  tryitWithRetryS
    (fun i s => executeRequest cfg s (buildUrlWithCacheKey cfg path params).1
      (buildUrlWithCacheKey cfg path params).2 now (transport i))
    cfg.retries
    (checkCache cfg st (buildUrlWithCacheKey cfg path params).2 now).1

/-- `AdvancedHttpClient.get` (src/utils/advanced-http.ts): build URL
and cache key, consult the cache and return the cached data when it is
truthy (`if (cachedData) return cachedData`), otherwise run
`executeRequest` through the retry wrapper, record metrics once for
the whole call (with the error flag), and throw the error or return
the result (`result as T`, which is `null` when both sides are
absent). `transport i` is what the `i`-th transport attempt produces;
`latency` is the measured wall-clock time of the call. The last
component counts the transport attempts performed (0 on a cache
hit). -/
def clientGet (cfg : AdvancedHttpConfig) (st : ClientState)
    (path : String) (params : List (String × JsValue)) (now : Nat)
    (transport : Nat → TransportOutcome) (latency : Nat) :
    ClientState × Except SatsnetApiError JsValue × Nat :=
  let checked := checkCache cfg st (buildUrlWithCacheKey cfg path params).2 now
  if checked.2.truthy then (checked.1, Except.ok checked.2, 0)
  else
    let ran := clientGetRan cfg st path params now transport
    let st3 := recordMetrics ran.1 latency ran.2.1.1.isSome
    match ran.2.1.1 with
    | some e => (st3, Except.error e, ran.2.2)
    | none => (st3, Except.ok (ran.2.1.2.getD JsValue.null), ran.2.2)

/-- The states a client instance can be in after a sequence of
completed GET calls from a fresh instance (the constructor zeroes the
metrics and the cache starts empty). -/
inductive Reachable : ClientState → Prop where
  | init : Reachable {}
  | get (cfg : AdvancedHttpConfig) (path : String)
      (params : List (String × JsValue)) (now : Nat)
      (transport : Nat → TransportOutcome) (latency : Nat)
      {st : ClientState} :
      Reachable st →
      Reachable (clientGet cfg st path params now transport latency).1

/-! Concrete fixtures used by witnesses and counterexamples. -/

/-- A success envelope with a `data` payload. -/
def envOk : JsValue :=
  JsValue.obj [("code", JsValue.num 0), ("msg", JsValue.str "ok"),
               ("data", JsValue.obj [("x", JsValue.num 1)])]

/-- The payload carried by `envOk`. -/
def payloadX : JsValue := JsValue.obj [("x", JsValue.num 1)]

/-- A well-formed envelope with application error code 7. -/
def envBad : JsValue :=
  JsValue.obj [("code", JsValue.num 7), ("msg", JsValue.str "bad")]

/-- A transport that always answers HTTP 200 with `envOk`. -/
def transportOk : Nat → TransportOutcome :=
  fun _ => TransportOutcome.response 200 (Except.ok envOk)

/-- A transport that always answers HTTP 200 with `envBad`. -/
def transportBad : Nat → TransportOutcome :=
  fun _ => TransportOutcome.response 200 (Except.ok envBad)

/-- The envelope-level ApiError with code 7 raised by unwrapping
`envBad`. -/
def apiError7 : SatsnetApiError :=
  { message := "API Error: bad", code := some 7, data := JsValue.undef }

/-- An HTTP-status error in the 4xx range. -/
def err404 : SatsnetApiError :=
  { message := "HTTP 404: Not Found", code := some 404, data := JsValue.undef }

/-- An HTTP-status error in the 5xx range. -/
def err502 : SatsnetApiError :=
  { message := "HTTP 502: Request Failed", code := some 502, data := JsValue.undef }

/-- The value a successful outcome settles with (used to express the
positional correspondence of the batch result). -/
def okValue : Except JsError JsValue → JsValue
  | Except.ok v => v
  | Except.error _ => JsValue.null

/-- A one-call batch whose call resolves with the value `null`. -/
def batchNullCalls : List (Except JsError JsValue) := [Except.ok JsValue.null]

/-- A two-call batch with non-`null` results. -/
def batchTwoCalls : List (Except JsError JsValue) :=
  [Except.ok (JsValue.num 1), Except.ok (JsValue.str "a")]

/-! Helper lemmas shared by the claim theorems. -/

/-- `storeInCache` never touches the metrics counters. -/
theorem storeInCache_metrics (cfg : AdvancedHttpConfig) (st : ClientState)
    (key : String) (d : JsValue) (now : Nat) :
    (storeInCache cfg st key d now).metrics = st.metrics := by
  unfold storeInCache; split <;> rfl

/-- One `executeRequest` attempt never touches the metrics counters:
it can only write the cache. -/
theorem executeRequest_metrics (cfg : AdvancedHttpConfig) (st : ClientState)
    (url key : String) (now : Nat) (t : TransportOutcome) :
    (executeRequest cfg st url key now t).1.metrics = st.metrics := by
  cases t with
  | failure e => rfl
  | response sc body =>
    cases body with
    | error m => by_cases h : 400 ≤ sc <;> simp [executeRequest, h]
    | ok data =>
      by_cases h : 400 ≤ sc <;> by_cases h2 : sc = 200 <;>
        simp [executeRequest, h, h2, storeInCache_metrics]

/-- The retry loop preserves the metrics counters whenever each attempt
does. -/
theorem tryitWithRetryGo_metrics {T : Type}
    (fn : Nat → ClientState → ClientState × Except JsError T)
    (hfn : ∀ i s, (fn i s).1.metrics = s.metrics) :
    ∀ remaining attempt s,
      (tryitWithRetryGo fn attempt remaining s).1.metrics = s.metrics := by
  intro remaining
  induction remaining with
  | zero => intro attempt s; rfl
  | succ r ih =>
    intro attempt s
    have h1 := hfn attempt s
    unfold tryitWithRetryGo
    rcases hfa : fn attempt s with ⟨s', o⟩
    rw [hfa] at h1
    cases o with
    | ok v => simpa using h1
    | error e =>
      simp only []
      split
      · simpa using h1
      · split
        · simpa using h1
        · rcases hgo : tryitWithRetryGo fn (attempt + 1) r s' with ⟨s'', rr, n⟩
          have h2 := ih (attempt + 1) s'
          rw [hgo] at h2
          simpa using h2.trans h1

/-- With at least one attempt allowed, the retry loop invokes the
operation at least once. -/
theorem tryitWithRetryGo_pos {S T : Type}
    (fn : Nat → S → S × Except JsError T) (attempt r : Nat) (s : S)
    (h : 1 ≤ r) : 1 ≤ (tryitWithRetryGo fn attempt r s).2.2 := by
  obtain ⟨r', rfl⟩ : ∃ r', r = r' + 1 := ⟨r - 1, by omega⟩
  unfold tryitWithRetryGo
  rcases fn attempt s with ⟨s', o⟩
  cases o with
  | ok v => simp
  | error e =>
    simp only []
    split
    · simp
    · split
      · simp
      · rcases tryitWithRetryGo fn (attempt + 1) r' s' with ⟨s'', rr, n⟩
        simp

/-- If every invocation of a pure operation fails and no failure is
classified as a client (4xx) error, the retry loop runs all the
attempts it is allowed and ends with the last attempt's wrapped
error. -/
theorem tryitWithRetryGo_all_fail {T : Type} (fn : Nat → Except JsError T)
    (h : ∀ i, ∃ e, fn i = Except.error e ∧ isClientError (wrapError e) = false) :
    ∀ remaining attempt, 1 ≤ remaining →
      ∃ e, fn (attempt + remaining - 1) = Except.error e ∧
        tryitWithRetryGo (fun i (u : Unit) => (u, fn i)) attempt remaining ()
          = ((), (some (wrapError e), none), remaining) := by
  intro remaining
  induction remaining with
  | zero => intro attempt h1; omega
  | succ r ih =>
    intro attempt _
    obtain ⟨e, he, hc⟩ := h attempt
    cases r with
    | zero =>
      refine ⟨e, by simpa using he, ?_⟩
      unfold tryitWithRetryGo
      simp [he, hc]
    | succ r' =>
      obtain ⟨e', he', hgo⟩ := ih (attempt + 1) (by omega)
      refine ⟨e', ?_, ?_⟩
      · have harith : attempt + 1 + (r' + 1) - 1 = attempt + (r' + 1 + 1) - 1 := by
          omega
        rw [← harith]; exact he'
      · unfold tryitWithRetryGo
        simp [he, hc, hgo]

/-- Looking up the key just written by `Map.set` yields the new
entry. -/
theorem mapGet_mapSet_self (m : List (String × JsValue × Nat))
    (key : String) (d : JsValue) (t : Nat) :
    mapGet (mapSet m key d t) key = some (d, t) := by
  induction m with
  | nil => simp [mapSet, mapGet]
  | cons p rest ih =>
    rcases p with ⟨k0, d0, t0⟩
    by_cases h : k0 = key <;> simp [mapSet, mapGet, h, ih]

/-- With caching enabled, `storeInCache` performs the `Map.set`. -/
theorem storeInCache_cache (cfg : AdvancedHttpConfig) (st : ClientState)
    (key : String) (d : JsValue) (now : Nat) (h : cfg.cache = true) :
    (storeInCache cfg st key d now).cache = mapSet st.cache key d now := by
  unfold storeInCache
  simp [h]

/-- With caching enabled, `storeInCache` as a state equation. -/
theorem storeInCache_eq (cfg : AdvancedHttpConfig) (st : ClientState)
    (key : String) (d : JsValue) (now : Nat) (h : cfg.cache = true) :
    storeInCache cfg st key d now
      = { st with cache := mapSet st.cache key d now } := by
  unfold storeInCache
  simp [h]

/-- `recordMetrics` never touches the cache. -/
theorem recordMetrics_cache (st : ClientState) (latency : Nat) (b : Bool) :
    (recordMetrics st latency b).cache = st.cache := rfl

/-- A cache lookup for an absent key reports `null` and leaves the
state unchanged. -/
theorem checkCache_absent (cfg : AdvancedHttpConfig) (st : ClientState)
    (key : String) (now : Nat) (h : mapGet st.cache key = none) :
    checkCache cfg st key now = (st, JsValue.null) := by
  unfold checkCache
  split
  · rfl
  · rw [h]

/-- A cache lookup for a fresh entry counts a hit and reports the
stored data. -/
theorem checkCache_hit (cfg : AdvancedHttpConfig) (st : ClientState)
    (key : String) (now : Nat) (d : JsValue) (ts : Nat)
    (hcache : cfg.cache = true) (hentry : mapGet st.cache key = some (d, ts))
    (hfresh : ¬(now - ts > cfg.cacheMaxAge)) :
    checkCache cfg st key now
      = ({ st with metrics := { st.metrics with
            cacheHits := st.metrics.cacheHits + 1 } }, d) := by
  unfold checkCache
  rw [if_neg (by rw [hcache]; exact fun h => nomatch h), hentry]
  simp [hfresh]

/-- `checkCache` never touches the latency counters: it can only
change `cacheHits`/`cacheMisses` and drop an expired entry. -/
theorem checkCache_latency (cfg : AdvancedHttpConfig) (st : ClientState)
    (key : String) (now : Nat) :
    (checkCache cfg st key now).1.metrics.requestCount = st.metrics.requestCount
    ∧ (checkCache cfg st key now).1.metrics.totalLatency = st.metrics.totalLatency
    ∧ (checkCache cfg st key now).1.metrics.averageLatency = st.metrics.averageLatency
    ∧ (checkCache cfg st key now).1.metrics.errorCount = st.metrics.errorCount := by
  unfold checkCache
  split
  · exact ⟨rfl, rfl, rfl, rfl⟩
  · split
    · exact ⟨rfl, rfl, rfl, rfl⟩
    · split <;> exact ⟨rfl, rfl, rfl, rfl⟩

/-- An `executeRequest` attempt answered HTTP 200 with a decodable
body stores the decoded value in the cache and applies the envelope
unwrap to it. -/
theorem executeRequest_200 (cfg : AdvancedHttpConfig) (s : ClientState)
    (url key : String) (now : Nat) (d : JsValue) :
    executeRequest cfg s url key now
        (TransportOutcome.response 200 (Except.ok d))
      = (storeInCache cfg s key d now,
         match processResponse d with
         | Except.ok v => Except.ok v
         | Except.error e => Except.error (JsError.api e)) := rfl

/-- The retried part of a GET leaves the metrics of the post-lookup
state untouched: only `recordMetrics` updates them, once per call. -/
theorem clientGetRan_metrics (cfg : AdvancedHttpConfig) (st : ClientState)
    (path : String) (params : List (String × JsValue)) (now : Nat)
    (transport : Nat → TransportOutcome) :
    (clientGetRan cfg st path params now transport).1.metrics
      = (checkCache cfg st (buildUrlWithCacheKey cfg path params).2 now).1.metrics := by
  unfold clientGetRan tryitWithRetryS
  exact tryitWithRetryGo_metrics _ (fun i s => executeRequest_metrics cfg s _ _ now _)
    cfg.retries 1 _

/-- On a truthy cache lookup, `get` returns the cached data
immediately: no transport attempt, no metrics recording. -/
theorem clientGet_hit (cfg : AdvancedHttpConfig) (st : ClientState)
    (path : String) (params : List (String × JsValue)) (now : Nat)
    (transport : Nat → TransportOutcome) (latency : Nat)
    (h : (checkCache cfg st (buildUrlWithCacheKey cfg path params).2 now).2.truthy
      = true) :
    clientGet cfg st path params now transport latency
      = ((checkCache cfg st (buildUrlWithCacheKey cfg path params).2 now).1,
         Except.ok (checkCache cfg st (buildUrlWithCacheKey cfg path params).2 now).2,
         0) := by
  unfold clientGet
  simp [h]

/-- On a falsy cache lookup, `get` runs the retried pipeline and
records metrics exactly once; the attempt counter is the retry loop's
invocation count. -/
theorem clientGet_miss (cfg : AdvancedHttpConfig) (st : ClientState)
    (path : String) (params : List (String × JsValue)) (now : Nat)
    (transport : Nat → TransportOutcome) (latency : Nat)
    (h : (checkCache cfg st (buildUrlWithCacheKey cfg path params).2 now).2.truthy
      = false) :
    clientGet cfg st path params now transport latency
      = (recordMetrics (clientGetRan cfg st path params now transport).1 latency
           (clientGetRan cfg st path params now transport).2.1.1.isSome,
         (match (clientGetRan cfg st path params now transport).2.1.1 with
          | some e => Except.error e
          | none => Except.ok
              ((clientGetRan cfg st path params now transport).2.1.2.getD
                JsValue.null)),
         (clientGetRan cfg st path params now transport).2.2) := by
  unfold clientGet
  cases hoe : (clientGetRan cfg st path params now transport).2.1.1 <;>
    simp [h, hoe]

/-! Claim theorems. -/

/-- C5: the envelope unwrap satisfies the three specified cases: a
`code 0` envelope with a `data` field unwraps to the `data` value; a
`code 0` envelope without a `data` field is returned whole; a
`code 7` envelope raises a `SatsnetApiError` with code 7 whose message
contains `"bad"`. -/
theorem envelope_unwrap_cases :
    processResponse (JsValue.obj [("code", JsValue.num 0), ("msg", JsValue.str "ok"),
        ("data", JsValue.obj [("x", JsValue.num 1)])])
      = Except.ok (JsValue.obj [("x", JsValue.num 1)])
    ∧ processResponse (JsValue.obj [("code", JsValue.num 0), ("msg", JsValue.str "ok")])
      = Except.ok (JsValue.obj [("code", JsValue.num 0), ("msg", JsValue.str "ok")])
    ∧ ∃ e, processResponse (JsValue.obj [("code", JsValue.num 7), ("msg", JsValue.str "bad"),
          ("data", JsValue.null)]) = Except.error e
        ∧ e.code = some 7
        ∧ ∃ pre post, e.message = pre ++ "bad" ++ post :=
  ⟨rfl, rfl, ⟨_, rfl, rfl, "API Error: ", "", rfl⟩⟩

/-- C8: `tryit` is total (modelled as a total function of the wrapped
operation's outcome, so it never rejects) and its pair has exactly one
side set: on a throw the error side is the structured wrapped
`SatsnetApiError` and the value side is absent, on success the error
side is absent and the value side is the operation's result; `isError`
recognizes exactly the throw case. -/
theorem tryit_pair_spec {T : Type} (o : Except JsError T) :
    ((tryit o).1.isSome ↔ (tryit o).2 = none)
    ∧ (isError (tryit o) = true ↔ ∃ e, o = Except.error e)
    ∧ ((∃ e, o = Except.error e ∧ tryit o = (some (wrapError e), none))
       ∨ (∃ v, o = Except.ok v ∧ tryit o = (none, some v))) := by
  cases o with
  | ok v =>
    exact ⟨by simp [tryit], by simp [tryit, isError], Or.inr ⟨v, rfl, rfl⟩⟩
  | error e =>
    exact ⟨by simp [tryit], by simp [tryit, isError], Or.inl ⟨e, rfl, rfl⟩⟩

/-- C2 counterexample: an operation that always fails with the
envelope-level `SatsnetApiError` code 7 (as raised by
`processResponse` on a `code 7` envelope) is invoked 3 times by
`tryitWithRetry(fn, 3)`, not exactly once as the claim states: the
early-stop test only recognizes codes in [400, 500). -/
theorem envelope_error_retry_cex :
    (tryitWithRetry (fun _ => (Except.error (JsError.api apiError7) :
        Except JsError JsValue)) 3).2 = 3
    ∧ (tryitWithRetry (fun _ => (Except.error (JsError.api apiError7) :
        Except JsError JsValue)) 3).2 ≠ 1 :=
  ⟨rfl, by decide⟩

/-- C2 amended: the retry wrapper stops after one invocation only when
the error's code lies in [400, 500). An envelope-level application
error whose code is outside that range (such as code 7) is treated as
transient: the operation is invoked exactly `maxAttempts` times and
the `SatsnetApiError` carrying the envelope's code is surfaced only
after the attempts are exhausted. -/
theorem envelope_error_retried (m : String) (c : Int) (d : JsValue)
    (maxRetries : Nat) (h1 : 1 ≤ maxRetries)
    (hc : ¬(400 ≤ c ∧ c < 500)) :
    (tryitWithRetry (fun _ => (Except.error (JsError.api
        { message := m, code := some c, data := d }) :
      Except JsError JsValue)) maxRetries).2 = maxRetries
    ∧ (tryitWithRetry (fun _ => (Except.error (JsError.api
        { message := m, code := some c, data := d }) :
      Except JsError JsValue)) maxRetries).1
      = (some { message := m, code := some c, data := d }, none) := by
  have hfail : ∀ i : Nat, ∃ e,
      (fun _ : Nat => (Except.error (JsError.api
          { message := m, code := some c, data := d }) :
        Except JsError JsValue)) i = Except.error e
      ∧ isClientError (wrapError e) = false := by
    intro i
    refine ⟨JsError.api { message := m, code := some c, data := d }, rfl, ?_⟩
    show isClientError { message := m, code := some c, data := d } = false
    rw [show isClientError { message := m, code := some c, data := d }
        = decide (c ≠ 0 ∧ 400 ≤ c ∧ c < 500) from rfl,
      decide_eq_false_iff_not]
    omega
  obtain ⟨e, hee, hgo⟩ := tryitWithRetryGo_all_fail _ hfail maxRetries 1 h1
  have he : JsError.api { message := m, code := some c, data := d } = e :=
    Except.error.inj hee
  rw [← he] at hgo
  have hfin : tryitWithRetry (fun _ => (Except.error (JsError.api
        { message := m, code := some c, data := d }) :
      Except JsError JsValue)) maxRetries
      = ((some { message := m, code := some c, data := d }, none), maxRetries) := by
    unfold tryitWithRetry tryitWithRetryS
    rw [hgo]
    rfl
  exact ⟨by rw [hfin], by rw [hfin]⟩

/-- C2 witness: an operation always failing with the envelope-level
code 7 error, retried with `maxRetries = 3`, is invoked 3 times and
the code-7 `SatsnetApiError` is surfaced at the end. -/
theorem envelope_error_retried_witness :
    (tryitWithRetry (fun _ => (Except.error (JsError.api
        { message := "API Error: bad", code := some 7, data := JsValue.null }) :
      Except JsError JsValue)) 3).2 = 3
    ∧ (tryitWithRetry (fun _ => (Except.error (JsError.api
        { message := "API Error: bad", code := some 7, data := JsValue.null }) :
      Except JsError JsValue)) 3).1
      = (some { message := "API Error: bad", code := some 7, data := JsValue.null },
         none) :=
  envelope_error_retried "API Error: bad" 7 JsValue.null 3 (by decide) (by decide)

/-- C4: with `maxAttempts ≥ 1`, an operation whose every invocation
fails with an error classified with a code in [400, 500) is invoked
exactly once, and an operation whose every invocation fails with a
5xx-classified or timeout-classified (code -9) error is invoked
exactly `maxAttempts` times, with the last invocation's wrapped error
returned. -/
theorem retry_boundary {T : Type} (fn : Nat → Except JsError T)
    (maxRetries : Nat) (h1 : 1 ≤ maxRetries) :
    ((∀ i, ∃ e, fn i = Except.error e
        ∧ ∃ c, (wrapError e).code = some c ∧ 400 ≤ c ∧ c < 500) →
      (tryitWithRetry fn maxRetries).2 = 1)
    ∧ ((∀ i, ∃ e, fn i = Except.error e
        ∧ ∃ c, (wrapError e).code = some c ∧ (500 ≤ c ∨ c = -9)) →
      (tryitWithRetry fn maxRetries).2 = maxRetries
      ∧ ∃ e, fn maxRetries = Except.error e
        ∧ (tryitWithRetry fn maxRetries).1 = (some (wrapError e), none)) := by
  constructor
  · intro h
    obtain ⟨r, rfl⟩ : ∃ r, maxRetries = r + 1 := ⟨maxRetries - 1, by omega⟩
    obtain ⟨e, he, c, hcode, hge, hlt⟩ := h 1
    have hcl : isClientError (wrapError e) = true := by
      simp [isClientError, hcode]
      omega
    simp [tryitWithRetry, tryitWithRetryS, tryitWithRetryGo, he, hcl]
  · intro h
    have hfail : ∀ i, ∃ e, fn i = Except.error e
        ∧ isClientError (wrapError e) = false := by
      intro i
      obtain ⟨e, he, c, hcode, hor⟩ := h i
      refine ⟨e, he, ?_⟩
      simp [isClientError, hcode, decide_eq_false_iff_not]
      omega
    obtain ⟨e, hee, hgo⟩ := tryitWithRetryGo_all_fail fn hfail maxRetries 1 h1
    have hidx : 1 + maxRetries - 1 = maxRetries := by omega
    rw [hidx] at hee
    have hfin : tryitWithRetry fn maxRetries
        = ((some (wrapError e), none), maxRetries) := by
      unfold tryitWithRetry tryitWithRetryS
      rw [hgo]
    exact ⟨by rw [hfin], e, hee, by rw [hfin]⟩

/-- C4 witness: with `maxRetries = 3`, an always-404 operation is
invoked once; an always-502 operation is invoked 3 times. -/
theorem retry_boundary_witness :
    (tryitWithRetry (fun _ => (Except.error (JsError.api err404) :
      Except JsError JsValue)) 3).2 = 1
    ∧ (tryitWithRetry (fun _ => (Except.error (JsError.api err502) :
      Except JsError JsValue)) 3).2 = 3 := by
  constructor
  · exact (retry_boundary _ 3 (by decide)).1
      (fun i => ⟨JsError.api err404, rfl, 404, rfl, by decide, by decide⟩)
  · exact ((retry_boundary _ 3 (by decide)).2
      (fun i => ⟨JsError.api err502, rfl, 502, rfl, Or.inl (by decide)⟩)).1

/-- C6 counterexample: the two-parameter maps `{a:1, b:2}` and
`{b:2, a:1}` contain the same key-value pairs (they are permutations
of one another, and membership coincides), yet the identity built for
them differs, because the query string follows insertion order and no
normalization is applied. -/
theorem identity_order_cex :
    List.Perm [("a", JsValue.num 1), ("b", JsValue.num 2)]
      [("b", JsValue.num 2), ("a", JsValue.num 1)]
    ∧ (∀ p, p ∈ [("a", JsValue.num 1), ("b", JsValue.num 2)] ↔
        p ∈ [("b", JsValue.num 2), ("a", JsValue.num 1)])
    ∧ (buildUrlWithCacheKey {} "p" [("a", JsValue.num 1), ("b", JsValue.num 2)]).2
      ≠ (buildUrlWithCacheKey {} "p" [("b", JsValue.num 2), ("a", JsValue.num 1)]).2 :=
  ⟨List.Perm.swap _ _ _, fun p => (List.Perm.swap _ _ _).mem_iff, by decide⟩

/-- C6 amended: the identity is a function of the *ordered* sequence
of serialized query entries: two parameter maps yield the same
identity exactly as far as they serialize (skipping `null` and
`undefined` values, stringifying the rest) to the same ordered list;
permuting the insertion order is not normalized away. -/
theorem identity_insertion_order (cfg : AdvancedHttpConfig) (path : String)
    (P1 P2 : List (String × JsValue))
    (h : P1.filterMap queryEntryString = P2.filterMap queryEntryString) :
    buildUrlWithCacheKey cfg path P1 = buildUrlWithCacheKey cfg path P2 := by
  unfold buildUrlWithCacheKey searchOf
  rw [h]

/-- C6 witness: `{a:1, n:null}` and `{a:"1"}` serialize to the same
ordered entry list (`n` is dropped, `1` stringifies like `"1"`), so
they build the same identity. -/
theorem identity_insertion_order_witness :
    [("a", JsValue.num 1), ("n", JsValue.null)].filterMap queryEntryString
      = [("a", JsValue.str "1")].filterMap queryEntryString
    ∧ buildUrlWithCacheKey {} "p" [("a", JsValue.num 1), ("n", JsValue.null)]
      = buildUrlWithCacheKey {} "p" [("a", JsValue.str "1")] :=
  ⟨rfl, identity_insertion_order {} "p" _ _ rfl⟩

/-- When every batch operation succeeds with a non-`null` value, the
aggregation collects no error and keeps every value in input order. -/
theorem tryitAllGo_all_ok (outcomes : List (Except JsError JsValue))
    (h : ∀ o ∈ outcomes, ∃ v, o = Except.ok v ∧ v.isNull = false) :
    tryitAllGo (outcomes.map tryit) = ([], outcomes.map okValue) := by
  induction outcomes with
  | nil => rfl
  | cons o rest ih =>
    obtain ⟨v, ho, hv⟩ := h o (List.mem_cons_self o rest)
    have hrest := ih (fun o' ho' => h o' (List.mem_cons_of_mem _ ho'))
    subst ho
    simp [tryit, tryitAllGo, hrest, hv, okValue]

/-- C7 counterexample: a batch whose single call resolves with the
value `null` makes `batchRequest` return without throwing, yet the
returned array is empty: the aggregation loop drops `null` values
(`else if (value !== null)`), so the result length differs from the
call list length. -/
theorem batch_null_drop_cex :
    ∃ results, batchRequest batchNullCalls = Except.ok results
      ∧ results.length ≠ batchNullCalls.length :=
  ⟨[], rfl, by decide⟩

/-- C7 amended: for every list of batch calls in which each call
resolves with a non-`null` value (so `batchRequest` returns without
throwing), the returned array has the same length as the call list
and its `i`-th element is the value produced by the `i`-th call. -/
theorem batch_positional (outcomes : List (Except JsError JsValue))
    (h : ∀ o ∈ outcomes, ∃ v, o = Except.ok v ∧ v.isNull = false) :
    ∃ results, batchRequest outcomes = Except.ok results
      ∧ results.length = outcomes.length
      ∧ ∀ i v, outcomes.get? i = some (Except.ok v) →
          results.get? i = some v := by
  refine ⟨outcomes.map okValue, ?_, by simp, ?_⟩
  · unfold batchRequest tryitAll
    rw [tryitAllGo_all_ok outcomes h]
  · intro i v hi
    rw [List.get?_map, hi]
    rfl

/-- C7 witness: a two-call batch with non-`null` results returns a
two-element array in input order. -/
theorem batch_positional_witness :
    ∃ results, batchRequest batchTwoCalls = Except.ok results
      ∧ results.length = batchTwoCalls.length
      ∧ ∀ i v, batchTwoCalls.get? i = some (Except.ok v) →
          results.get? i = some v := by
  refine batch_positional batchTwoCalls ?_
  intro o ho
  rcases List.mem_cons.mp ho with h | h
  · exact ⟨JsValue.num 1, by rw [h], rfl⟩
  · rcases List.mem_cons.mp h with h2 | h2
    · exact ⟨JsValue.str "a", by rw [h2], rfl⟩
    · cases h2

/-- C1 counterexample: against a transport always answering HTTP 200
with the success envelope `envOk` (whose payload is `payloadX`), the
first GET returns the unwrapped payload but the value stored in the
cache is the whole envelope, and a second identical GET within
`cacheMaxAge` returns that cached envelope — a different value than
the first call returned. -/
theorem cache_envelope_cex :
    (clientGet {} {} "p" [] 1000 transportOk 5).2.1 = Except.ok payloadX
    ∧ mapGet (clientGet {} {} "p" [] 1000 transportOk 5).1.cache
        "/btc/mainnet/p" = some (envOk, 1000)
    ∧ (clientGet {} (clientGet {} {} "p" [] 1000 transportOk 5).1
        "p" [] 1100 transportOk 5).2.1 = Except.ok envOk
    ∧ Except.ok envOk ≠ (Except.ok payloadX : Except SatsnetApiError JsValue) := by
  refine ⟨rfl, rfl, rfl, ?_⟩
  intro h
  simp [envOk, payloadX] at h

/-- C1 amended: with caching enabled and the key absent, a GET whose
first transport attempt is HTTP 200 with decoded body `D` (an
envelope unwrapping to `r`) returns the unwrapped `r`, but stores the
*decoded envelope* `D` in the cache; a second identical GET within
`cacheMaxAge` (with any transport) returns the cached envelope `D`
without unwrapping it, not the first call's return value. -/
theorem cache_stores_envelope (cfg : AdvancedHttpConfig) (st : ClientState)
    (path : String) (params : List (String × JsValue))
    (now1 now2 : Nat) (transport transport2 : Nat → TransportOutcome)
    (lat1 lat2 : Nat) (D r : JsValue)
    (hcache : cfg.cache = true)
    (habsent : mapGet st.cache (buildUrlWithCacheKey cfg path params).2 = none)
    (hretries : 1 ≤ cfg.retries)
    (ht : transport 1 = TransportOutcome.response 200 (Except.ok D))
    (hD : processResponse D = Except.ok r)
    (htruthy : D.truthy = true)
    (hfresh : ¬(now2 - now1 > cfg.cacheMaxAge)) :
    (clientGet cfg st path params now1 transport lat1).2.1 = Except.ok r
    ∧ mapGet (clientGet cfg st path params now1 transport lat1).1.cache
        (buildUrlWithCacheKey cfg path params).2 = some (D, now1)
    ∧ (clientGet cfg (clientGet cfg st path params now1 transport lat1).1
        path params now2 transport2 lat2).2.1 = Except.ok D := by
  have hcc : checkCache cfg st (buildUrlWithCacheKey cfg path params).2 now1
      = (st, JsValue.null) :=
    checkCache_absent cfg st _ now1 habsent
  obtain ⟨r', hr⟩ : ∃ r', cfg.retries = r' + 1 := ⟨cfg.retries - 1, by omega⟩
  have hran : clientGetRan cfg st path params now1 transport
      = (storeInCache cfg st (buildUrlWithCacheKey cfg path params).2 D now1,
         (none, some r), 1) := by
    unfold clientGetRan tryitWithRetryS
    rw [hcc, hr]
    unfold tryitWithRetryGo
    simp only [ht, executeRequest_200, hD]
  have h1 : clientGet cfg st path params now1 transport lat1
      = (recordMetrics
           (storeInCache cfg st (buildUrlWithCacheKey cfg path params).2 D now1)
           lat1 false,
         Except.ok r, 1) := by
    rw [clientGet_miss cfg st path params now1 transport lat1 (by rw [hcc]; rfl),
      hran]
    rfl
  have hstored : mapGet (clientGet cfg st path params now1 transport lat1).1.cache
      (buildUrlWithCacheKey cfg path params).2 = some (D, now1) := by
    rw [h1]
    show mapGet (storeInCache cfg st
        (buildUrlWithCacheKey cfg path params).2 D now1).cache
      (buildUrlWithCacheKey cfg path params).2 = some (D, now1)
    rw [storeInCache_cache cfg st _ D now1 hcache, mapGet_mapSet_self]
  refine ⟨by rw [h1], hstored, ?_⟩
  have hcc2 : checkCache cfg (clientGet cfg st path params now1 transport lat1).1
      (buildUrlWithCacheKey cfg path params).2 now2
      = ({ (clientGet cfg st path params now1 transport lat1).1 with
            metrics := { (clientGet cfg st path params now1 transport lat1).1.metrics with
              cacheHits := (clientGet cfg st path params now1 transport lat1).1.metrics.cacheHits + 1 } },
         D) :=
    checkCache_hit cfg _ _ now2 D now1 hcache hstored hfresh
  rw [clientGet_hit cfg _ path params now2 transport2 lat2
    (by rw [hcc2]; exact htruthy), hcc2]

/-- C1 witness: the amended behavior at a concrete run — transport
delivering `envOk`, first call at time 1000, second at 1100. -/
theorem cache_stores_envelope_witness :
    (clientGet {} {} "p" [] 1000 transportOk 5).2.1 = Except.ok payloadX
    ∧ mapGet (clientGet {} {} "p" [] 1000 transportOk 5).1.cache
        (buildUrlWithCacheKey {} "p" []).2 = some (envOk, 1000)
    ∧ (clientGet {} (clientGet {} {} "p" [] 1000 transportOk 5).1
        "p" [] 1100 transportOk 5).2.1 = Except.ok envOk :=
  cache_stores_envelope {} {} "p" [] 1000 1100 transportOk transportOk 5 5
    envOk payloadX rfl rfl (by decide) rfl rfl rfl (by decide)

/-- C3 counterexample: a GET answered HTTP 200 with the envelope
`envBad` (`code 7`) propagates the envelope-level `SatsnetApiError`
to the caller, yet the cache — empty before the call — afterwards
holds the decoded envelope under the request's key: the cache is
written before envelope validation. -/
theorem cache_write_on_envelope_error_cex :
    (clientGet {} {} "p" [] 1000 transportBad 5).2.1 = Except.error apiError7
    ∧ ({} : ClientState).cache = []
    ∧ mapGet (clientGet {} {} "p" [] 1000 transportBad 5).1.cache
        "/btc/mainnet/p" = some (envBad, 1000) :=
  ⟨rfl, rfl, rfl⟩

/-- C3 amended: with caching enabled, an `executeRequest` attempt
writes the cache exactly when the transport succeeded at the HTTP
level (status 200 with a decodable body) — *before* the envelope
unwrap, so a call failing with an envelope-level error (`code != 0`
under HTTP 200) still overwrites the cache entry with the decoded
envelope. Only transport failures, HTTP-status errors (>= 400) and
decode failures leave the cache map unchanged. -/
theorem cache_written_on_http_success (cfg : AdvancedHttpConfig)
    (st : ClientState) (url key : String) (now : Nat)
    (hcache : cfg.cache = true) :
    (∀ d, (executeRequest cfg st url key now
        (TransportOutcome.response 200 (Except.ok d))).1.cache
      = mapSet st.cache key d now)
    ∧ (∀ d e, processResponse d = Except.error e →
        executeRequest cfg st url key now
          (TransportOutcome.response 200 (Except.ok d))
        = ({ st with cache := mapSet st.cache key d now },
           Except.error (JsError.api e)))
    ∧ (∀ e, (executeRequest cfg st url key now
        (TransportOutcome.failure e)).1 = st)
    ∧ (∀ sc body, 400 ≤ sc →
        (executeRequest cfg st url key now
          (TransportOutcome.response sc body)).1 = st)
    ∧ (∀ sc msg, ¬400 ≤ sc →
        (executeRequest cfg st url key now
          (TransportOutcome.response sc (Except.error msg))).1 = st) := by
  refine ⟨?_, ?_, ?_, ?_, ?_⟩
  · intro d
    rw [executeRequest_200]
    exact storeInCache_cache cfg st key d now hcache
  · intro d e he
    rw [executeRequest_200, he, storeInCache_eq cfg st key d now hcache]
  · intro e
    rfl
  · intro sc body h
    unfold executeRequest
    simp [h]
  · intro sc msg h
    unfold executeRequest
    simp [h]

/-- C3 witness: the amended behavior at concrete inputs — the `code 7`
envelope under HTTP 200 is cached while the ApiError propagates, and
an HTTP 500 response leaves the state unchanged. -/
theorem cache_written_on_http_success_witness :
    executeRequest {} {} "u" "k" 1000
        (TransportOutcome.response 200 (Except.ok envBad))
      = ({ ({} : ClientState) with cache := mapSet ([] : List (String × JsValue × Nat)) "k" envBad 1000 },
         Except.error (JsError.api apiError7))
    ∧ (executeRequest {} {} "u" "k" 1000
        (TransportOutcome.response 500 (Except.ok envOk))).1 = {} :=
  ⟨(cache_written_on_http_success {} {} "u" "k" 1000 rfl).2.1 envBad apiError7 rfl,
   (cache_written_on_http_success {} {} "u" "k" 1000 rfl).2.2.2.1 500
     (Except.ok envOk) (by decide)⟩

/-- C9: (1) in every state reachable by a sequence of completed GET
calls, `averageLatency = totalLatency / requestCount` whenever
`requestCount > 0`; (2) a cache hit leaves the latency counters
untouched (and performs no transport attempt); (3) a completed
non-cache-hit call — whatever its transport does across all its retry
attempts — bumps `requestCount` exactly once and adds the call's
latency exactly once. -/
theorem metrics_invariant :
    (∀ st, Reachable st → 0 < st.metrics.requestCount →
      st.metrics.averageLatency
        = (st.metrics.totalLatency : ℚ) / (st.metrics.requestCount : ℚ))
    ∧ (∀ cfg st path params now transport latency,
        (checkCache cfg st (buildUrlWithCacheKey cfg path params).2 now).2.truthy
          = true →
        (clientGet cfg st path params now transport latency).1.metrics.requestCount
          = st.metrics.requestCount
        ∧ (clientGet cfg st path params now transport latency).1.metrics.totalLatency
          = st.metrics.totalLatency
        ∧ (clientGet cfg st path params now transport latency).1.metrics.averageLatency
          = st.metrics.averageLatency
        ∧ (clientGet cfg st path params now transport latency).2.2 = 0)
    ∧ (∀ cfg st path params now transport latency,
        (checkCache cfg st (buildUrlWithCacheKey cfg path params).2 now).2.truthy
          = false →
        (clientGet cfg st path params now transport latency).1.metrics.requestCount
          = st.metrics.requestCount + 1
        ∧ (clientGet cfg st path params now transport latency).1.metrics.totalLatency
          = st.metrics.totalLatency + latency) := by
  have hit : ∀ (cfg : AdvancedHttpConfig) (st : ClientState) path params now
      transport latency,
      (checkCache cfg st (buildUrlWithCacheKey cfg path params).2 now).2.truthy
        = true →
      (clientGet cfg st path params now transport latency).1.metrics.requestCount
        = st.metrics.requestCount
      ∧ (clientGet cfg st path params now transport latency).1.metrics.totalLatency
        = st.metrics.totalLatency
      ∧ (clientGet cfg st path params now transport latency).1.metrics.averageLatency
        = st.metrics.averageLatency
      ∧ (clientGet cfg st path params now transport latency).2.2 = 0 := by
    intro cfg st path params now transport latency h
    rw [clientGet_hit cfg st path params now transport latency h]
    obtain ⟨h1, h2, h3, -⟩ := checkCache_latency cfg st
      (buildUrlWithCacheKey cfg path params).2 now
    exact ⟨h1, h2, h3, rfl⟩
  have miss : ∀ (cfg : AdvancedHttpConfig) (st : ClientState) path params now
      transport latency,
      (checkCache cfg st (buildUrlWithCacheKey cfg path params).2 now).2.truthy
        = false →
      (clientGet cfg st path params now transport latency).1.metrics.requestCount
        = st.metrics.requestCount + 1
      ∧ (clientGet cfg st path params now transport latency).1.metrics.totalLatency
        = st.metrics.totalLatency + latency := by
    intro cfg st path params now transport latency h
    rw [clientGet_miss cfg st path params now transport latency h]
    have hm : (clientGetRan cfg st path params now transport).1.metrics
        = (checkCache cfg st (buildUrlWithCacheKey cfg path params).2 now).1.metrics :=
      clientGetRan_metrics cfg st path params now transport
    obtain ⟨h1, h2, -, -⟩ := checkCache_latency cfg st
      (buildUrlWithCacheKey cfg path params).2 now
    constructor
    · show (clientGetRan cfg st path params now transport).1.metrics.requestCount + 1
        = st.metrics.requestCount + 1
      rw [hm, h1]
    · show (clientGetRan cfg st path params now transport).1.metrics.totalLatency + latency
        = st.metrics.totalLatency + latency
      rw [hm, h2]
  refine ⟨?_, hit, miss⟩
  intro st hreach
  induction hreach with
  | init => intro h; exact absurd h (by decide)
  | get cfg path params now transport latency hst ih =>
    rename_i st0
    by_cases h : (checkCache cfg st0
        (buildUrlWithCacheKey cfg path params).2 now).2.truthy
    · intro hpos
      obtain ⟨h1, h2, h3, -⟩ := hit cfg st0 path params now transport latency h
      rw [h1] at hpos
      rw [h3, h2, h1]
      exact ih hpos
    · intro hpos
      rw [clientGet_miss cfg st0 path params now transport latency
        (Bool.not_eq_true _ ▸ (by simpa using h))]
      rfl

/-- C9 witness: the invariant instantiated — part (1) at the state
after one completed call from a fresh client (requestCount is 1);
part (2) at a state whose cache holds a truthy fresh entry (a hit:
counters untouched, 0 transport attempts); part (3) at a fresh client
(a completed call: counters bumped exactly once). -/
theorem metrics_invariant_witness :
    ((clientGet {} {} "p" [] 1000 transportOk 5).1.metrics.averageLatency
      = ((clientGet {} {} "p" [] 1000 transportOk 5).1.metrics.totalLatency : ℚ)
        / ((clientGet {} {} "p" [] 1000 transportOk 5).1.metrics.requestCount : ℚ))
    ∧ ((clientGet {} { cache := [("/btc/mainnet/p", JsValue.num 1, 100)] }
          "p" [] 150 transportOk 5).1.metrics.requestCount
        = ({ cache := [("/btc/mainnet/p", JsValue.num 1, 100)] } :
            ClientState).metrics.requestCount
       ∧ (clientGet {} { cache := [("/btc/mainnet/p", JsValue.num 1, 100)] }
          "p" [] 150 transportOk 5).2.2 = 0)
    ∧ (clientGet {} {} "p" [] 1000 transportOk 5).1.metrics.requestCount
        = ({} : ClientState).metrics.requestCount + 1 := by
  refine ⟨?_, ⟨?_, ?_⟩, ?_⟩
  · exact metrics_invariant.1 _
      (Reachable.get {} "p" [] 1000 transportOk 5 Reachable.init) (by decide)
  · exact (metrics_invariant.2.1 {} { cache := [("/btc/mainnet/p", JsValue.num 1, 100)] }
      "p" [] 150 transportOk 5 rfl).1
  · exact (metrics_invariant.2.1 {} { cache := [("/btc/mainnet/p", JsValue.num 1, 100)] }
      "p" [] 150 transportOk 5 rfl).2.2.2
  · exact (metrics_invariant.2.2 {} {} "p" [] 1000 transportOk 5 rfl).1

/-- C10: with caching enabled, when the cache holds a fresh entry
whose value is falsy (`null`, `0`, `""` or `false`), a GET for that
key does not short-circuit: the lookup counts a cache hit, yet the
client still performs at least one transport attempt — a falsy value
is never served from the cache. -/
theorem falsy_cache_no_short_circuit (cfg : AdvancedHttpConfig)
    (st : ClientState) (path : String) (params : List (String × JsValue))
    (now : Nat) (transport : Nat → TransportOutcome) (latency : Nat)
    (v : JsValue) (ts : Nat)
    (hcache : cfg.cache = true)
    (hentry : mapGet st.cache (buildUrlWithCacheKey cfg path params).2
      = some (v, ts))
    (hfresh : ¬(now - ts > cfg.cacheMaxAge))
    (hfalsy : v.truthy = false)
    (hretries : 1 ≤ cfg.retries) :
    1 ≤ (clientGet cfg st path params now transport latency).2.2
    ∧ (clientGet cfg st path params now transport latency).1.metrics.cacheHits
      = st.metrics.cacheHits + 1 := by
  have hcc := checkCache_hit cfg st (buildUrlWithCacheKey cfg path params).2
    now v ts hcache hentry hfresh
  have hT : (checkCache cfg st (buildUrlWithCacheKey cfg path params).2 now).2.truthy
      = false := by rw [hcc]; exact hfalsy
  rw [clientGet_miss cfg st path params now transport latency hT]
  constructor
  · show 1 ≤ (clientGetRan cfg st path params now transport).2.2
    unfold clientGetRan tryitWithRetryS
    exact tryitWithRetryGo_pos _ 1 cfg.retries _ hretries
  · show (clientGetRan cfg st path params now transport).1.metrics.cacheHits
      = st.metrics.cacheHits + 1
    rw [clientGetRan_metrics cfg st path params now transport, hcc]

/-- C10 witness: a cached falsy value (`0`) stored fresh under the
request's key — the GET counts one cache hit and still performs a
transport attempt. -/
theorem falsy_cache_no_short_circuit_witness :
    1 ≤ (clientGet {} { cache := [("/btc/mainnet/p", JsValue.num 0, 100)] }
        "p" [] 200 transportOk 5).2.2
    ∧ (clientGet {} { cache := [("/btc/mainnet/p", JsValue.num 0, 100)] }
        "p" [] 200 transportOk 5).1.metrics.cacheHits
      = ({ cache := [("/btc/mainnet/p", JsValue.num 0, 100)] } :
          ClientState).metrics.cacheHits + 1 :=
  falsy_cache_no_short_circuit {} { cache := [("/btc/mainnet/p", JsValue.num 0, 100)] }
    "p" [] 200 transportOk 5 (JsValue.num 0) 100 rfl rfl (by decide) rfl (by decide)

end SatsnetApi
